import Mathlib

/-!
Shallow embedding of the falling-block game engine of this repository.

The repository contains two source variants of the engine:
* `src/mini-app/app/page.tsx` (the level-aware variant): board `ROWS × COLS`
  of cells `0..7`, a current piece with shape / type / anchor, a queued next
  piece, score, lines-cleared count, level, drop interval, pause flag and a
  three-valued stage.  Its operations `spawnPiece`, `rotateMatrix`,
  `rotatePiece`, `movePiece`, `dropPiece`, `hardDrop`, `checkCollision`,
  `lockPiece`, `clearLines` and the game-over effect are embedded below under
  the root namespace.
* `src/unnamed/part_000` (the flat-score variant): same board, pieces carry
  only shape and anchor, no level / lines state.  Embedded in namespace `V0`.

JavaScript numbers used as board coordinates are embedded as `Int` (they can
be negative above the board); cell values and counters are `Nat`.  The random
draws of `Math.floor(Math.random() * SHAPES.length)` are injected as explicit
`Fin 7` parameters, following the spec's requirement that randomness be an
injectable capability.
-/

namespace FallingEmojis

/-- `ROWS = 20` in page.tsx (`BOARD_HEIGHT` in the other variant). -/
def ROWS : Nat := 20

/-- `COLS = 10` in page.tsx (`BOARD_WIDTH` in the other variant). -/
def COLS : Nat := 10

/-- A board row: a list of cells, `0` is the empty cell. -/
abbrev Row := List Nat

/-- The board: a list of rows. -/
abbrev Board := List (List Nat)

/-- The seven tetromino shapes of page.tsx, each a 4×4 matrix whose nonzero
cells carry the piece-type identifier (1..7). -/
def SHAPES : List (List (List Nat)) :=
  [ [[0, 0, 0, 0],
     [1, 1, 1, 1],
     [0, 0, 0, 0],
     [0, 0, 0, 0]],
    [[0, 0, 0, 0],
     [0, 2, 2, 0],
     [0, 2, 2, 0],
     [0, 0, 0, 0]],
    [[0, 0, 0, 0],
     [3, 3, 3, 0],
     [0, 3, 0, 0],
     [0, 0, 0, 0]],
    [[0, 0, 0, 0],
     [0, 4, 4, 0],
     [4, 4, 0, 0],
     [0, 0, 0, 0]],
    [[0, 0, 0, 0],
     [5, 5, 0, 0],
     [0, 5, 5, 0],
     [0, 0, 0, 0]],
    [[0, 0, 0, 0],
     [6, 6, 6, 0],
     [6, 0, 0, 0],
     [0, 0, 0, 0]],
    [[0, 0, 0, 0],
     [7, 7, 7, 0],
     [0, 0, 7, 0],
     [0, 0, 0, 0]] ]

/-- Read matrix cell `(r, c)`; out-of-range reads default to the empty cell,
matching the `Array(..).fill(EMPTY_CELL)` initialisation of the source (all
reads performed by the source are in range for well-formed inputs). -/
def cellAtN (b : Board) (r c : Nat) : Nat := (b.getD r []).getD c 0

/-- `rotateMatrix` of page.tsx (identically `rotateMatrix` of part_000):
builds an `n × n` result with `result[c][n-1-r] = matrix[r][c]` for all
`r, c < n`, i.e. entrywise `result[i][j] = matrix[n-1-j][i]`. -/
def rotateMatrix (m : List (List Nat)) : List (List Nat) :=
  let n := m.length
  (List.range n).map (fun i => (List.range n).map (fun j => cellAtN m (n - 1 - j) i))

/-- `checkCollision` of page.tsx: a nonzero shape cell collides when its board
column is off-board left or right, its board row is at or below the floor, or
it lands on an occupied in-board cell; rows above the board never collide. -/
def checkCollision (board : Board) (shape : List (List Nat)) (x y : Int) : Bool :=
  (List.range shape.length).any (fun i =>
    (List.range ((shape.getD i []).length)).any (fun j =>
      let cell := (shape.getD i []).getD j 0
      let boardX : Int := x + j
      let boardY : Int := y + i
      decide (cell ≠ 0) &&
        (decide (boardX < 0) || decide ((COLS : Int) ≤ boardX) || decide ((ROWS : Int) ≤ boardY) ||
          (decide (0 ≤ boardY) && decide (cellAtN board boardY.toNat boardX.toNat ≠ 0)))))

/-- The stage of page.tsx: "welcome" | "game" | "results". -/
inductive Stage where
  | welcome
  | game
  | results
deriving DecidableEq

/-- The current piece of page.tsx: shape matrix, type identifier and anchor. -/
structure Piece where
  shape : List (List Nat)
  type : Nat
  x : Int
  y : Int
deriving DecidableEq

/-- The queued next piece of page.tsx: shape matrix and type identifier. -/
structure NextPiece where
  shape : List (List Nat)
  type : Nat
deriving DecidableEq

/-- The component state of page.tsx relevant to the engine. -/
structure GameState where
  stage : Stage
  board : Board
  currentPiece : Option Piece
  nextPiece : Option NextPiece
  score : Nat
  linesCleared : Nat
  level : Nat
  dropInterval : Nat
  isPaused : Bool
  highScore : Nat
deriving DecidableEq

/-- `spawnPiece` of page.tsx: both the new current piece and the new next
piece are freshly generated from the injected random draws; the previously
queued next piece is not consulted.  The spawn anchor is
`x = Math.floor(COLS / 2) - 2 = 3`, `y = 0`. -/
def spawnPiece (r1 r2 : Fin 7) (s : GameState) : GameState :=
  let type := r1.val + 1
  let nextType := r2.val + 1
  { s with
    currentPiece := some
      { shape := SHAPES.getD (type - 1) []
        type := type
        x := (COLS : Int) / 2 - 2
        y := 0 }
    nextPiece := some
      { shape := SHAPES.getD (nextType - 1) []
        type := nextType } }

/-- `rotatePiece` of page.tsx: apply the clockwise rotation only when it is
collision free at the unchanged anchor; otherwise leave the state unchanged. -/
def rotatePiece (s : GameState) : GameState :=
  match s.currentPiece with
  | none => s
  | some p =>
    let rotated := rotateMatrix p.shape
    if checkCollision s.board rotated p.x p.y then s
    else { s with currentPiece := some { p with shape := rotated } }

/-- `movePiece` of page.tsx: displace the anchor by `(dx, dy)` only when the
destination is collision free; otherwise leave the state unchanged. -/
def movePiece (dx dy : Int) (s : GameState) : GameState :=
  match s.currentPiece with
  | none => s
  | some p =>
    let newX := p.x + dx
    let newY := p.y + dy
    if checkCollision s.board p.shape newX newY then s
    else { s with currentPiece := some { p with x := newX, y := newY } }

/-- Write value `v` into board cell `(r, c)`; a no-op out of range (the source
only performs this write after an explicit bounds check). -/
def setCell (b : Board) (r c : Nat) (v : Nat) : Board :=
  b.set r ((b.getD r []).set c v)

/-- The loop body of `lockPiece` in page.tsx at shape cell `(i, j)`: when the
cell is nonzero and its target board coordinate lies strictly inside the
board, write the piece type `t` there, otherwise leave the board alone. -/
def lockWrite (shape : List (List Nat)) (t : Nat) (x y : Int) (i : Nat)
    (acc2 : Board) (j : Nat) : Board :=
  let cell := (shape.getD i []).getD j 0
  let boardX : Int := x + j
  let boardY : Int := y + i
  if cell ≠ 0 ∧ 0 ≤ boardY ∧ boardY < (ROWS : Int) ∧ 0 ≤ boardX ∧ boardX < (COLS : Int) then
    setCell acc2 boardY.toNat boardX.toNat t
  else acc2

/-- The inner loop of `lockPiece` in page.tsx over shape row `i`. -/
def lockRow (shape : List (List Nat)) (t : Nat) (x y : Int) (acc : Board) (i : Nat) :
    Board :=
  (List.range ((shape.getD i []).length)).foldl (lockWrite shape t x y i) acc

/-- The board update of `lockPiece` in page.tsx: the nested loop over all
shape cells, writing every in-bounds nonzero cell's target. -/
def lockPieceBoard (b : Board) (shape : List (List Nat)) (t : Nat) (x y : Int) : Board :=
  (List.range shape.length).foldl (lockRow shape t x y) b

/-- The full-row index scan of `clearLines` in page.tsx: the indices
`i < ROWS` whose row has no empty cell. -/
def fullRows (nb : Board) : List Nat :=
  (List.range ROWS).filter (fun i => (nb.getD i []).all (fun cell => decide (cell ≠ 0)))

/-- `clearLines` of page.tsx, as a transform of the component state after the
board has been set to the freshly locked board `nb`: when no row is full it
returns early; otherwise it removes the full rows, prepends as many empty
rows, awards `cleared * 10 * level` points, adds `cleared` to the
lines-cleared count and, when the updated total is an exact multiple of 10,
increments the level and lowers the drop interval by 100 with floor 200. -/
def clearLines (nb : Board) (st : GameState) : GameState :=
  let fr := fullRows nb
  if fr.length = 0 then st
  else
    let cleared := fr.length
    let newRows : Board := List.replicate cleared (List.replicate COLS 0)
    let remaining := (nb.enum.filter (fun p => decide (¬ p.1 ∈ fr))).map (fun p => p.2)
    let updatedBoard := newRows ++ remaining
    let levelUp := (st.linesCleared + cleared) % 10 = 0
    { st with
      board := updatedBoard
      score := st.score + cleared * 10 * st.level
      linesCleared := st.linesCleared + cleared
      level := if levelUp then st.level + 1 else st.level
      dropInterval := if levelUp then max 200 (st.dropInterval - 100) else st.dropInterval }

/-- `lockPiece` of page.tsx: write the current piece into the board, run the
line clear on the locked board, then spawn fresh current and next pieces. -/
def lockPiece (r1 r2 : Fin 7) (s : GameState) : GameState :=
  match s.currentPiece with
  | none => s
  | some p =>
    let newBoard := lockPieceBoard s.board p.shape p.type p.x p.y
    spawnPiece r1 r2 (clearLines newBoard { s with board := newBoard })

/-- `dropPiece` of page.tsx (the shared tick / soft-drop operation): move the
current piece down one row when collision free, otherwise lock and respawn. -/
def dropPiece (r1 r2 : Fin 7) (s : GameState) : GameState :=
  match s.currentPiece with
  | none => s
  | some p =>
    let newY := p.y + 1
    if checkCollision s.board p.shape p.x newY then lockPiece r1 r2 s
    else { s with currentPiece := some { p with y := newY } }

/-- The descent loop of `hardDrop` in page.tsx
(`while (!checkCollision(piece, x, newY + 1)) newY++`), with explicit fuel;
`none` means the fuel ran out before the loop condition became false. -/
def dropLoop (board : Board) (shape : List (List Nat)) (x : Int) : Nat → Int → Option Int
  | 0, y => if checkCollision board shape x (y + 1) then some y else none
  | fuel + 1, y =>
    if checkCollision board shape x (y + 1) then some y
    else dropLoop board shape x fuel (y + 1)

/-- The game-over effect of page.tsx: while in stage "game", when any cell of
the topmost row is occupied, move to stage "results" and raise the high score
when beaten.  The boolean result records whether `setHighScore(score)` was
invoked, i.e. whether the new-high-score signal was emitted. -/
def gameOverCheck (s : GameState) : GameState × Bool :=
  if s.stage = Stage.game ∧ (s.board.getD 0 []).any (fun cell => decide (cell ≠ 0)) then
    ({ s with
        stage := Stage.results
        highScore := if s.highScore < s.score then s.score else s.highScore },
      decide (s.highScore < s.score))
  else (s, false)

namespace V0

/-- `BOARD_HEIGHT = 20` in part_000. -/
def BOARD_HEIGHT : Nat := 20

/-- `BOARD_WIDTH = 10` in part_000. -/
def BOARD_WIDTH : Nat := 10

/-- The seven tetromino shapes of part_000: matrices of sizes 4, 2 and 3
whose nonzero cells carry the piece-type identifier. -/
def SHAPES : List (List (List Nat)) :=
  [ [[0, 0, 0, 0],
     [1, 1, 1, 1],
     [0, 0, 0, 0],
     [0, 0, 0, 0]],
    [[2, 2],
     [2, 2]],
    [[0, 3, 0],
     [3, 3, 3],
     [0, 0, 0]],
    [[0, 4, 4],
     [4, 4, 0],
     [0, 0, 0]],
    [[5, 5, 0],
     [0, 5, 5],
     [0, 0, 0]],
    [[6, 0, 0],
     [6, 6, 6],
     [0, 0, 0]],
    [[0, 0, 7],
     [7, 7, 7],
     [0, 0, 0]] ]

/-- The current piece of part_000: shape matrix and anchor, no stored type. -/
structure Piece where
  shape : List (List Nat)
  x : Int
  y : Int
deriving DecidableEq

/-- The component state of part_000 relevant to the engine: no lines-cleared
count, level or drop interval. -/
structure GameState where
  stage : Stage
  board : Board
  currentPiece : Option Piece
  nextPiece : Option (List (List Nat))
  score : Nat
  highScore : Nat
  paused : Bool
deriving DecidableEq

/-- `checkCollision` of part_000 (same rule as the page.tsx variant). -/
def checkCollision (board : Board) (shape : List (List Nat)) (x y : Int) : Bool :=
  (List.range shape.length).any (fun r =>
    (List.range ((shape.getD r []).length)).any (fun c =>
      let cell := (shape.getD r []).getD c 0
      let boardX : Int := x + c
      let boardY : Int := y + r
      decide (cell ≠ 0) &&
        (decide (boardX < 0) || decide ((BOARD_WIDTH : Int) ≤ boardX) ||
          decide ((BOARD_HEIGHT : Int) ≤ boardY) ||
          (decide (0 ≤ boardY) && decide (cellAtN board boardY.toNat boardX.toNat ≠ 0)))))

/-- The board update of `lockPiece` in part_000: writes the shape cell value
(rather than a stored type) into every in-bounds target cell. -/
def lockPieceBoard (b : Board) (shape : List (List Nat)) (x y : Int) : Board :=
  (List.range shape.length).foldl (fun acc r =>
    (List.range ((shape.getD r []).length)).foldl (fun acc2 c =>
      let cell := (shape.getD r []).getD c 0
      let boardX : Int := x + c
      let boardY : Int := y + r
      if cell ≠ 0 ∧ 0 ≤ boardY ∧ boardY < (BOARD_HEIGHT : Int) ∧
          0 ≤ boardX ∧ boardX < (BOARD_WIDTH : Int) then
        setCell acc2 boardY.toNat boardX.toNat cell
      else acc2) acc) b

/-- `clearLines` of part_000: filters out the full rows and builds the padded
board `finalBoard`, but only returns the score delta `linesCleared * 100`;
`finalBoard` is discarded by the caller, which stores the unfiltered board. -/
def clearLines (boardToCheck : Board) : Nat :=
  let newBoard := boardToCheck.filter (fun row => row.any (fun cell => decide (cell = 0)))
  let linesCleared := BOARD_HEIGHT - newBoard.length
  let emptyRows : Board := List.replicate linesCleared (List.replicate BOARD_WIDTH 0)
  let finalBoard := emptyRows ++ newBoard
  let _ := finalBoard
  linesCleared * 100

/-- `spawnPiece` of part_000: a freshly generated shape spawns centred above
the board; the queued next piece is freshly generated too, never promoted. -/
def spawnPiece (r1 r2 : Fin 7) (s : GameState) : GameState :=
  let shape := SHAPES.getD r1.val []
  let nextShape := SHAPES.getD r2.val []
  { s with
    currentPiece := some
      { shape := shape
        x := ((BOARD_WIDTH : Int) - ((shape.getD 0 []).length : Int)) / 2
        y := -(shape.length : Int) }
    nextPiece := some nextShape }

/-- `lockPiece` of part_000: stores the locked board unchanged (the cleared
board computed by `clearLines` is discarded), adds the returned score delta
and respawns. -/
def lockPiece (r1 r2 : Fin 7) (s : GameState) : GameState :=
  match s.currentPiece with
  | none => s
  | some p =>
    let newBoard := lockPieceBoard s.board p.shape p.x p.y
    let cleared := clearLines newBoard
    spawnPiece r1 r2 { s with board := newBoard, score := s.score + cleared }

/-- `movePiece` of part_000: apply the displacement when collision free; on a
blocked downward move (`dy = 1`) lock the piece; otherwise do nothing. -/
def movePiece (r1 r2 : Fin 7) (dx dy : Int) (s : GameState) : GameState :=
  match s.currentPiece with
  | none => s
  | some p =>
    let newX := p.x + dx
    let newY := p.y + dy
    if ¬ checkCollision s.board p.shape newX newY then
      { s with currentPiece := some { p with x := newX, y := newY } }
    else if dy = 1 then lockPiece r1 r2 s
    else s

/-- The game-over effect of part_000: whenever the current piece's placement
collides, move to stage "results" and raise the high score when beaten.  The
boolean result records whether the new-high-score signal was emitted. -/
def gameOverCheck (s : GameState) : GameState × Bool :=
  match s.currentPiece with
  | none => (s, false)
  | some p =>
    if checkCollision s.board p.shape p.x p.y then
      ({ s with
          stage := Stage.results
          highScore := if s.highScore < s.score then s.score else s.highScore },
        decide (s.highScore < s.score))
    else (s, false)

end V0

/-! ### Properties of `rotateMatrix` -/

theorem length_rotateMatrix (m : List (List Nat)) : (rotateMatrix m).length = m.length := by
  simp [rotateMatrix]

theorem length_getElem_rotateMatrix (m : List (List Nat)) {i : Nat}
    (hi : i < (rotateMatrix m).length) : (rotateMatrix m)[i].length = m.length := by
  simp [rotateMatrix]

theorem cellAtN_eq_getElem (b : Board) {i j : Nat} (hi : i < b.length)
    (hj : j < b[i].length) : cellAtN b i j = b[i][j] := by
  rw [cellAtN, List.getD_eq_getElem _ _ hi, List.getD_eq_getElem _ _ hj]

theorem cellAtN_rotateMatrix (m : List (List Nat)) {i j : Nat}
    (hi : i < m.length) (hj : j < m.length) :
    cellAtN (rotateMatrix m) i j = cellAtN m (m.length - 1 - j) i := by
  simp only [rotateMatrix, cellAtN, List.getD_eq_getElem?_getD, List.getElem?_map,
    List.getElem?_range hi, List.getElem?_range hj, Option.map_some', Option.getD_some]

/-- Claim C6: `rotateMatrix` sends the element at `(row, col)` of a square
`N × N` matrix to `(col, N-1-row)`, and four successive applications return
the original matrix cell for cell. -/
theorem rotateMatrix_clockwise_and_fourth_power (m : List (List Nat)) (n : Nat)
    (hn : m.length = n) (hsq : ∀ row ∈ m, row.length = n) :
    (∀ r c, r < n → c < n → cellAtN (rotateMatrix m) c (n - 1 - r) = cellAtN m r c) ∧
    rotateMatrix (rotateMatrix (rotateMatrix (rotateMatrix m))) = m := by
  subst hn
  constructor
  · intro r c hr hc
    have h1 : m.length - 1 - r < m.length := by omega
    rw [cellAtN_rotateMatrix m hc h1]
    have : m.length - 1 - (m.length - 1 - r) = r := by omega
    rw [this]
  · have l1 : (rotateMatrix m).length = m.length := length_rotateMatrix m
    have l2 : (rotateMatrix (rotateMatrix m)).length = m.length := by
      rw [length_rotateMatrix, l1]
    have l3 : (rotateMatrix (rotateMatrix (rotateMatrix m))).length = m.length := by
      rw [length_rotateMatrix, l2]
    have l4 : (rotateMatrix (rotateMatrix (rotateMatrix (rotateMatrix m)))).length
        = m.length := by rw [length_rotateMatrix, l3]
    apply List.ext_getElem (by rw [l4])
    intro i h4i hmi
    have hi : i < m.length := hmi
    have hpos : 0 < m.length := Nat.lt_of_le_of_lt (Nat.zero_le _) hi
    apply List.ext_getElem
    · rw [length_getElem_rotateMatrix, l3, hsq m[i] (List.getElem_mem hi)]
    intro j h4j hmj
    have hj : j < m.length := by
      have h := h4j
      rwa [length_getElem_rotateMatrix, l3] at h
    have e4 : (rotateMatrix (rotateMatrix (rotateMatrix (rotateMatrix m))))[i][j]
        = cellAtN (rotateMatrix (rotateMatrix (rotateMatrix (rotateMatrix m)))) i j :=
      (cellAtN_eq_getElem _ h4i h4j).symm
    have em : m[i][j] = cellAtN m i j := (cellAtN_eq_getElem _ hi hmj).symm
    rw [e4, em]
    rw [cellAtN_rotateMatrix _ (by rwa [l3]) (by rwa [l3]), l3]
    rw [cellAtN_rotateMatrix _ (by rw [l2]; omega) (by rwa [l2]), l2]
    rw [cellAtN_rotateMatrix _ (by rw [l1]; omega) (by rw [l1]; omega), l1]
    rw [cellAtN_rotateMatrix _ (by omega) (by omega)]
    have e1 : m.length - 1 - (m.length - 1 - i) = i := by omega
    have e2 : m.length - 1 - (m.length - 1 - j) = j := by omega
    rw [e1, e2]

/-- Witness for claim C6 at a concrete 3×3 matrix. -/
theorem rotateMatrix_clockwise_and_fourth_power_witness :
    cellAtN (rotateMatrix [[1, 2, 0], [0, 3, 4], [5, 0, 6]]) 2 (3 - 1 - 1) =
      cellAtN [[1, 2, 0], [0, 3, 4], [5, 0, 6]] 1 2 ∧
    rotateMatrix (rotateMatrix (rotateMatrix (rotateMatrix
      [[1, 2, 0], [0, 3, 4], [5, 0, 6]]))) = [[1, 2, 0], [0, 3, 4], [5, 0, 6]] := by
  have h := rotateMatrix_clockwise_and_fourth_power
    [[1, 2, 0], [0, 3, 4], [5, 0, 6]] 3 rfl (by decide)
  exact ⟨h.1 1 2 (by decide) (by decide), h.2⟩

/-! ### Properties of `clearLines` (page.tsx variant) -/

theorem countP_range_getD {α : Type} (l : List α) (d : α) (p : α → Bool) :
    (List.range l.length).countP (fun i => p (l.getD i d)) = l.countP p := by
  induction l with
  | nil => simp
  | cons a t ih =>
    rw [List.length_cons, List.range_succ_eq_map, List.countP_cons, List.countP_map]
    have hsucc : ((fun i => p ((a :: t).getD i d)) ∘ Nat.succ)
        = (fun i => p (t.getD i d)) := rfl
    rw [hsucc, ih, List.countP_cons]
    rfl

/-- The predicate deciding whether a row is full (every cell occupied). -/
def isFullRow (row : Row) : Bool := row.all (fun cell => decide (cell ≠ 0))

theorem length_fullRows (nb : Board) (h : nb.length = ROWS) :
    (fullRows nb).length = (nb.filter isFullRow).length := by
  rw [fullRows, ← List.countP_eq_length_filter, ← List.countP_eq_length_filter, ← h]
  exact countP_range_getD nb ([] : Row) isFullRow

theorem clearLines_eq_of_none (nb : Board) (st : GameState)
    (h : (fullRows nb).length = 0) : clearLines nb st = st := by
  simp only [clearLines]
  rw [if_pos h]

theorem clearLines_eq_of_full (nb : Board) (st : GameState)
    (h : ¬ (fullRows nb).length = 0) :
    clearLines nb st =
      { st with
        board := List.replicate (fullRows nb).length (List.replicate COLS 0) ++
          ((nb.enum.filter (fun p => decide (¬ p.1 ∈ fullRows nb))).map (fun p => p.2))
        score := st.score + (fullRows nb).length * 10 * st.level
        linesCleared := st.linesCleared + (fullRows nb).length
        level := if (st.linesCleared + (fullRows nb).length) % 10 = 0
          then st.level + 1 else st.level
        dropInterval := if (st.linesCleared + (fullRows nb).length) % 10 = 0
          then max 200 (st.dropInterval - 100) else st.dropInterval } := by
  simp only [clearLines]
  rw [if_neg h]

/-- Claim C2: on a `ROWS`-row board, the score increase awarded by the line
clear equals `10 * k * level`, where `k` is the number of full rows (for
`k = 0` the early return leaves the score unchanged). -/
theorem clearLines_score_eq (nb : Board) (st : GameState) (h : nb.length = ROWS) :
    (clearLines nb st).score = st.score + 10 * (nb.filter isFullRow).length * st.level := by
  rw [← length_fullRows nb h]
  unfold clearLines
  by_cases h0 : (fullRows nb).length = 0
  · rw [if_pos h0, h0]
    simp
  · rw [if_neg h0]
    show st.score + (fullRows nb).length * 10 * st.level
      = st.score + 10 * (fullRows nb).length * st.level
    ring

/-- A concrete 20×10 board whose bottom row is full. -/
def boardOneFull : Board :=
  List.replicate 19 (List.replicate 10 0) ++ [List.replicate 10 1]

/-- A concrete playing state at level 5 with score 7. -/
def stateLevel5 : GameState :=
  { stage := Stage.game
    board := boardOneFull
    currentPiece := none
    nextPiece := none
    score := 7
    linesCleared := 3
    level := 5
    dropInterval := 800
    isPaused := false
    highScore := 0 }

/-- Witness for claim C2: clearing the one full row at level 5 awards
`10 * 1 * 5 = 50` points. -/
theorem clearLines_score_eq_witness : (clearLines boardOneFull stateLevel5).score = 57 := by
  rw [clearLines_score_eq boardOneFull stateLevel5 (by decide)]
  decide

/-- A concrete 20×10 board whose two bottom rows are full. -/
def boardTwoFull : Board :=
  List.replicate 18 (List.replicate 10 0) ++ [List.replicate 10 1, List.replicate 10 1]

/-- A concrete playing state with 9 lines already cleared at level 1. -/
def stateNineLines : GameState :=
  { stage := Stage.game
    board := boardTwoFull
    currentPiece := none
    nextPiece := none
    score := 0
    linesCleared := 9
    level := 1
    dropInterval := 1000
    isPaused := false
    highScore := 0 }

/-- Counterexample to claim C4 as stated: clearing 2 rows takes the
lines-cleared total from 9 to 11, so the interval `(9, 11]` contains the
multiple of 10, yet the code leaves level and drop interval unchanged
because `11 % 10 ≠ 0`. -/
theorem clearLines_levelup_counterexample :
    stateNineLines.linesCleared = 9 ∧
    (clearLines boardTwoFull stateNineLines).linesCleared = 11 ∧
    (9 < 10 ∧ 10 ≤ 11 ∧ 10 % 10 = 0) ∧
    (clearLines boardTwoFull stateNineLines).level = stateNineLines.level ∧
    (clearLines boardTwoFull stateNineLines).dropInterval
      = stateNineLines.dropInterval := by
  decide

/-- Claim C4 (amended): after a clear of `k > 0` rows the level is
incremented by exactly 1 if and only if the updated lines-cleared total
`n + k` is itself an exact multiple of 10 (not merely when `(n, n+k]`
crosses a multiple of 10); on such an increment the drop interval decreases
by the fixed step 100, floored at the minimum 200, and otherwise it is
unchanged; a clear of zero rows leaves the whole state unchanged. -/
theorem clearLines_levelup_amended (nb : Board) (st : GameState) :
    (0 < (fullRows nb).length →
      (clearLines nb st).linesCleared = st.linesCleared + (fullRows nb).length ∧
      ((clearLines nb st).level = st.level + 1 ↔
        (st.linesCleared + (fullRows nb).length) % 10 = 0) ∧
      ((st.linesCleared + (fullRows nb).length) % 10 = 0 →
        (clearLines nb st).dropInterval = max 200 (st.dropInterval - 100)) ∧
      ((st.linesCleared + (fullRows nb).length) % 10 ≠ 0 →
        (clearLines nb st).dropInterval = st.dropInterval)) ∧
    ((fullRows nb).length = 0 → clearLines nb st = st) := by
  constructor
  · intro hk
    have hk' : ¬ (fullRows nb).length = 0 := by omega
    rw [clearLines_eq_of_full nb st hk']
    refine ⟨rfl, ?_, ?_, ?_⟩
    · by_cases hm : (st.linesCleared + (fullRows nb).length) % 10 = 0
      · simp [hm]
      · simp [hm]
    · intro hm
      simp [hm]
    · intro hm
      simp [hm]
  · intro hk
    exact clearLines_eq_of_none nb st hk

/-- Witness for the amended claim C4: clearing one row at 9 lines reaches 10,
so the level rises from 1 to 2 and the drop interval drops from 1000 to
`max 200 900 = 900`. -/
theorem clearLines_levelup_amended_witness :
    (clearLines boardOneFull stateNineLines).level = stateNineLines.level + 1 ∧
    (clearLines boardOneFull stateNineLines).dropInterval
      = max 200 (stateNineLines.dropInterval - 100) := by
  have h := (clearLines_levelup_amended boardOneFull stateNineLines).1 (by decide)
  exact ⟨h.2.1.mpr (by decide), h.2.2.1 (by decide)⟩

/-! ### Frame properties of `movePiece` and `rotatePiece` -/

/-- The all-empty 20×10 board. -/
def emptyBoard : Board := List.replicate 20 (List.replicate 10 0)

/-- Claim C7: a horizontal move (`dy = 0`) either changes only the current
piece's anchor x-coordinate by `dx` or leaves the state unchanged, in both
source variants; in particular the board is never modified, so a blocked
horizontal move never locks the piece. -/
theorem movePiece_frame (dx : Int) (_hdx : dx = -1 ∨ dx = 1) :
    (∀ s : GameState,
      (movePiece dx 0 s = s ∨
        ∃ p, s.currentPiece = some p ∧
          movePiece dx 0 s = { s with currentPiece := some { p with x := p.x + dx } }) ∧
      (movePiece dx 0 s).board = s.board) ∧
    (∀ (r1 r2 : Fin 7) (v : V0.GameState),
      (V0.movePiece r1 r2 dx 0 v = v ∨
        ∃ p, v.currentPiece = some p ∧
          V0.movePiece r1 r2 dx 0 v
            = { v with currentPiece := some { p with x := p.x + dx } }) ∧
      (V0.movePiece r1 r2 dx 0 v).board = v.board) := by
  constructor
  · intro s
    rcases hc : s.currentPiece with _ | p
    · refine ⟨Or.inl ?_, ?_⟩ <;> simp [movePiece, hc]
    · by_cases hcol : checkCollision s.board p.shape (p.x + dx) p.y = true
      · refine ⟨Or.inl ?_, ?_⟩ <;> simp [movePiece, hc, hcol]
      · refine ⟨Or.inr ⟨p, rfl, ?_⟩, ?_⟩ <;> simp [movePiece, hc, hcol]
  · intro r1 r2 v
    rcases hc : v.currentPiece with _ | p
    · refine ⟨Or.inl ?_, ?_⟩ <;> simp [V0.movePiece, hc]
    · by_cases hcol : V0.checkCollision v.board p.shape (p.x + dx) p.y = true
      · refine ⟨Or.inl ?_, ?_⟩ <;> simp [V0.movePiece, hc, hcol]
      · refine ⟨Or.inr ⟨p, rfl, ?_⟩, ?_⟩ <;> simp [V0.movePiece, hc, hcol]

/-- A concrete V0 state with no current piece. -/
def v0StateNoPiece : V0.GameState :=
  { stage := Stage.game
    board := emptyBoard
    currentPiece := none
    nextPiece := none
    score := 0
    highScore := 0
    paused := false }

/-- Witness for claim C7 at `dx = 1` on concrete states of both variants. -/
theorem movePiece_frame_witness :
    (movePiece 1 0 stateLevel5).board = stateLevel5.board ∧
    (V0.movePiece 0 0 1 0 v0StateNoPiece).board = v0StateNoPiece.board :=
  ⟨((movePiece_frame 1 (Or.inr rfl)).1 stateLevel5).2,
    ((movePiece_frame 1 (Or.inr rfl)).2 0 0 v0StateNoPiece).2⟩

/-- Claim C8: `rotatePiece` replaces the current shape by its clockwise
rotation exactly when the rotated shape is collision free at the unchanged
anchor, otherwise it is a silent no-op; the anchor is never adjusted (no
wall kick). -/
theorem rotatePiece_spec (s : GameState) (p : Piece) (hc : s.currentPiece = some p) :
    (checkCollision s.board (rotateMatrix p.shape) p.x p.y = false →
      rotatePiece s
        = { s with currentPiece := some { p with shape := rotateMatrix p.shape } }) ∧
    (checkCollision s.board (rotateMatrix p.shape) p.x p.y = true → rotatePiece s = s) ∧
    (∀ q, (rotatePiece s).currentPiece = some q → q.x = p.x ∧ q.y = p.y) := by
  refine ⟨?_, ?_, ?_⟩
  · intro h
    simp [rotatePiece, hc, h]
  · intro h
    simp [rotatePiece, hc, h]
  · intro q hq
    by_cases h : checkCollision s.board (rotateMatrix p.shape) p.x p.y = true
    · simp only [rotatePiece, hc, h, if_true] at hq
      simp only [Option.some.injEq] at hq
      subst hq
      exact ⟨rfl, rfl⟩
    · simp only [rotatePiece, hc] at hq
      rw [if_neg h] at hq
      simp only [Option.some.injEq] at hq
      subst hq
      exact ⟨rfl, rfl⟩

/-- The O piece of page.tsx at its spawn anchor. -/
def pieceO : Piece := { shape := SHAPES.getD 1 [], type := 2, x := 3, y := 0 }

/-- A concrete playing state whose current piece is the O piece on an empty
board. -/
def stateWithO : GameState :=
  { stage := Stage.game
    board := emptyBoard
    currentPiece := some pieceO
    nextPiece := none
    score := 0
    linesCleared := 0
    level := 1
    dropInterval := 1000
    isPaused := false
    highScore := 0 }

/-- Witness for claim C8: rotating the O piece on an empty board applies the
rotated shape at the unchanged anchor. -/
theorem rotatePiece_spec_witness :
    rotatePiece stateWithO
      = { stateWithO with
          currentPiece := some { pieceO with shape := rotateMatrix pieceO.shape } } :=
  (rotatePiece_spec stateWithO pieceO rfl).1 (by decide)

/-! ### The game-over transition and the new-high-score signal -/

/-- Claim C5: while playing, when the game-over condition holds (page.tsx:
some cell of row 0 occupied; part_000: the current piece's placement
collides), the session moves to the terminal stage and the new-high-score
signal is emitted exactly when the final score strictly exceeds the
persisted high score; when the condition does not hold, nothing happens and
no signal is emitted. -/
theorem gameOverCheck_spec (s : GameState) :
    (s.stage = Stage.game →
      (s.board.getD 0 []).any (fun cell => decide (cell ≠ 0)) = true →
      (gameOverCheck s).1.stage = Stage.results ∧
      ((gameOverCheck s).2 = true ↔ s.highScore < s.score)) ∧
    (¬ (s.stage = Stage.game ∧
        (s.board.getD 0 []).any (fun cell => decide (cell ≠ 0)) = true) →
      gameOverCheck s = (s, false)) ∧
    (∀ (v : V0.GameState) (p : V0.Piece), v.currentPiece = some p →
      v.stage = Stage.game →
      (V0.checkCollision v.board p.shape p.x p.y = true →
        (V0.gameOverCheck v).1.stage = Stage.results ∧
        ((V0.gameOverCheck v).2 = true ↔ v.highScore < v.score)) ∧
      (V0.checkCollision v.board p.shape p.x p.y = false →
        V0.gameOverCheck v = (v, false))) := by
  refine ⟨?_, ?_, ?_⟩
  · intro h1 h2
    rw [gameOverCheck, if_pos ⟨h1, h2⟩]
    exact ⟨rfl, by simp⟩
  · intro h
    rw [gameOverCheck, if_neg h]
  · intro v p hc _hst
    constructor
    · intro hcol
      simp only [V0.gameOverCheck, hc, hcol]
      simp
    · intro hcol
      simp only [V0.gameOverCheck, hc]
      rw [if_neg (by simp [hcol])]

/-- A concrete playing state whose top row has an occupied cell, with score
5 beating the stored high score 3. -/
def stateTopOccupied : GameState :=
  { stage := Stage.game
    board := [1, 0, 0, 0, 0, 0, 0, 0, 0, 0] :: List.replicate 19 (List.replicate 10 0)
    currentPiece := none
    nextPiece := none
    score := 5
    linesCleared := 0
    level := 1
    dropInterval := 1000
    isPaused := false
    highScore := 3 }

/-- A concrete V0 playing state whose current piece collides at its own
placement. -/
def v0StateColliding : V0.GameState :=
  { stage := Stage.game
    board := [2, 2, 0, 0, 0, 0, 0, 0, 0, 0] :: List.replicate 19 (List.replicate 10 0)
    currentPiece := some { shape := [[2, 2], [2, 2]], x := 0, y := 0 }
    nextPiece := none
    score := 10
    highScore := 2
    paused := false }

/-- Witness for claim C5 on concrete states of both variants. -/
theorem gameOverCheck_spec_witness :
    ((gameOverCheck stateTopOccupied).1.stage = Stage.results ∧
      ((gameOverCheck stateTopOccupied).2 = true ↔
        stateTopOccupied.highScore < stateTopOccupied.score)) ∧
    ((V0.gameOverCheck v0StateColliding).1.stage = Stage.results ∧
      ((V0.gameOverCheck v0StateColliding).2 = true ↔
        v0StateColliding.highScore < v0StateColliding.score)) :=
  ⟨(gameOverCheck_spec stateTopOccupied).1 rfl (by decide),
    ((gameOverCheck_spec stateTopOccupied).2.2 v0StateColliding
      { shape := [[2, 2], [2, 2]], x := 0, y := 0 } rfl rfl).1 (by decide)⟩

/-! ### The tick / soft-drop operation and spawning -/

/-- The O piece of page.tsx resting on the floor of the board. -/
def pieceOBottom : Piece := { shape := SHAPES.getD 1 [], type := 2, x := 3, y := 17 }

/-- A concrete playing state whose current O piece collides one row down and
whose queued next piece is the I piece (type 1). -/
def stateAboutToLock : GameState :=
  { stage := Stage.game
    board := emptyBoard
    currentPiece := some pieceOBottom
    nextPiece := some { shape := SHAPES.getD 0 [], type := 1 }
    score := 0
    linesCleared := 0
    level := 1
    dropInterval := 1000
    isPaused := false
    highScore := 0 }

/-- Counterexample to claim C1 as stated: in a state whose downward
destination collides and whose queued next piece has type 1, the tick with
random draw 1 spawns a current piece of type 2 — the queued next piece is
not promoted. -/
theorem dropPiece_spawns_queued_counterexample :
    checkCollision stateAboutToLock.board pieceOBottom.shape pieceOBottom.x
      (pieceOBottom.y + 1) = true ∧
    Option.map NextPiece.type stateAboutToLock.nextPiece = some 1 ∧
    Option.map Piece.type (dropPiece 1 0 stateAboutToLock).currentPiece = some 2 ∧
    Option.map Piece.type (dropPiece 1 0 stateAboutToLock).currentPiece
      ≠ Option.map NextPiece.type stateAboutToLock.nextPiece := by
  decide

/-- Claim C1 (amended): when the downward destination is collision free the
tick only moves the current piece down one row; when it collides, the tick
locks the piece into the board (followed by the line clear) and spawns a
freshly generated current piece from the random draw `r1` — discarding the
previously queued next piece — while a freshly generated next piece from
draw `r2` is queued. -/
theorem dropPiece_tick_amended (s : GameState) (p : Piece) (r1 r2 : Fin 7)
    (hc : s.currentPiece = some p) :
    (checkCollision s.board p.shape p.x (p.y + 1) = false →
      dropPiece r1 r2 s = { s with currentPiece := some { p with y := p.y + 1 } }) ∧
    (checkCollision s.board p.shape p.x (p.y + 1) = true →
      dropPiece r1 r2 s = lockPiece r1 r2 s ∧
      (dropPiece r1 r2 s).board =
        (clearLines (lockPieceBoard s.board p.shape p.type p.x p.y)
          { s with board := lockPieceBoard s.board p.shape p.type p.x p.y }).board ∧
      (dropPiece r1 r2 s).currentPiece = some
        { shape := SHAPES.getD r1.val []
          type := r1.val + 1
          x := (COLS : Int) / 2 - 2
          y := 0 } ∧
      (dropPiece r1 r2 s).nextPiece = some
        { shape := SHAPES.getD r2.val [], type := r2.val + 1 }) := by
  constructor
  · intro h
    simp [dropPiece, hc, h]
  · intro h
    have hd : dropPiece r1 r2 s = lockPiece r1 r2 s := by
      simp [dropPiece, hc, h]
    refine ⟨hd, ?_, ?_, ?_⟩ <;> rw [hd] <;> simp [lockPiece, hc, spawnPiece]

/-- Witness for the amended claim C1 with random draws 2 and 3. -/
theorem dropPiece_tick_amended_witness :
    (dropPiece 2 3 stateAboutToLock).currentPiece = some
      { shape := SHAPES.getD 2 [], type := 3, x := (COLS : Int) / 2 - 2, y := 0 } ∧
    (dropPiece 2 3 stateAboutToLock).nextPiece = some
      { shape := SHAPES.getD 3 [], type := 4 } := by
  have h := (dropPiece_tick_amended stateAboutToLock pieceOBottom 2 3 rfl).2 (by decide)
  exact ⟨h.2.2.1, h.2.2.2⟩

/-! ### The board after a line clear -/

theorem enumFrom_filter_snd_map {α : Type} (p : α → Bool) (l : List α) :
    ∀ n : Nat,
      ((List.enumFrom n l).filter (fun q => p q.2)).map (fun q => q.2) = l.filter p := by
  induction l with
  | nil => intro n; rfl
  | cons a t ih =>
    intro n
    simp only [List.enumFrom, List.filter_cons]
    by_cases hp : p a
    · simp [hp, ih (n + 1)]
    · simp [hp, ih (n + 1)]

theorem mem_fullRows_iff (nb : Board) (h : nb.length = ROWS) (q : Nat × Row)
    (hq : q ∈ nb.enum) : q.1 ∈ fullRows nb ↔ isFullRow q.2 = true := by
  have hget : nb.get? q.1 = some q.2 := List.mem_enum_iff_get?.mp hq
  have h1 : q.1 < nb.length := by
    by_contra hh
    rw [List.get?_eq_none.mpr (Nat.le_of_not_lt hh)] at hget
    exact Option.noConfusion hget
  have hgd : nb.getD q.1 [] = q.2 := by
    rw [List.getD_eq_get?, hget]
    rfl
  rw [fullRows, List.mem_filter, List.mem_range]
  constructor
  · intro hcond
    have := hcond.2
    rwa [hgd] at this
  · intro hfull
    exact ⟨by omega, by rwa [hgd]⟩

/-- The board stored by page.tsx after `clearLines`: the full rows are
removed, replaced by as many all-empty rows prepended at the top, with the
relative order of the remaining rows preserved. -/
theorem clearLines_board (nb : Board) (st : GameState) (h : nb.length = ROWS)
    (hb : st.board = nb) :
    (clearLines nb st).board =
      List.replicate (nb.filter isFullRow).length (List.replicate COLS 0) ++
        nb.filter (fun row => ¬ isFullRow row) := by
  by_cases h0 : (fullRows nb).length = 0
  · rw [clearLines_eq_of_none nb st h0, hb]
    have hnil : nb.filter isFullRow = [] :=
      List.length_eq_zero.mp (by rw [← length_fullRows nb h]; exact h0)
    have hall : ∀ row ∈ nb, ¬ isFullRow row = true := List.filter_eq_nil_iff.mp hnil
    rw [hnil]
    simp only [List.length_nil, List.replicate_zero, List.nil_append]
    exact (List.filter_eq_self.mpr (fun a ha => by simp [hall a ha])).symm
  · rw [clearLines_eq_of_full nb st h0]
    show List.replicate (fullRows nb).length (List.replicate COLS 0) ++ _ = _
    rw [length_fullRows nb h]
    congr 1
    have hcongr : ∀ q ∈ nb.enum,
        decide (¬ q.1 ∈ fullRows nb) = decide (¬ isFullRow q.2 = true) := by
      intro q hq
      simp [mem_fullRows_iff nb h q hq]
    rw [List.filter_congr hcongr]
    exact enumFrom_filter_snd_map (fun row => decide (¬ isFullRow row = true)) nb 0

/-- After `clearLines` of page.tsx the stored board again has `ROWS` rows
and contains no full row. -/
theorem clearLines_board_wellformed (nb : Board) (st : GameState)
    (h : nb.length = ROWS) (hb : st.board = nb) :
    (clearLines nb st).board.length = ROWS ∧
    ∀ row ∈ (clearLines nb st).board, isFullRow row = false := by
  rw [clearLines_board nb st h hb]
  constructor
  · rw [List.length_append, List.length_replicate,
      ← List.countP_eq_length_filter, ← List.countP_eq_length_filter, ← h]
    exact (List.length_eq_countP_add_countP isFullRow nb).symm
  · intro row hrow
    rcases List.mem_append.mp hrow with hrep | hfil
    · rw [List.eq_of_mem_replicate hrep]
      decide
    · have := (List.mem_filter.mp hfil).2
      simpa using this

/-- A concrete V0 playing state: the bottom row lacks only the four cells
that the current horizontal I piece will fill when it locks. -/
def v0StateRowAlmostFull : V0.GameState :=
  { stage := Stage.game
    board := List.replicate 19 (List.replicate 10 0) ++ [[1, 1, 1, 1, 1, 1, 0, 0, 0, 0]]
    currentPiece := some { shape := V0.SHAPES.getD 0 [], x := 6, y := 18 }
    nextPiece := none
    score := 0
    highScore := 0
    paused := false }

/-- The same situation in the page.tsx variant. -/
def pageStateRowAlmostFull : GameState :=
  { stage := Stage.game
    board := List.replicate 19 (List.replicate 10 0) ++ [[1, 1, 1, 1, 1, 1, 0, 0, 0, 0]]
    currentPiece := some { shape := SHAPES.getD 0 [], type := 1, x := 6, y := 18 }
    nextPiece := none
    score := 0
    linesCleared := 0
    level := 1
    dropInterval := 1000
    isPaused := false
    highScore := 0 }

/-- Claim C3, evaluated at the failing input of the part_000 variant:
locking the I piece completes the bottom row, yet the board stored by
part_000's `lockPiece` still contains that full row (its `clearLines`
computes the cleared board and discards it) while the page.tsx variant
stores the properly cleared all-empty board. -/
theorem lockPiece_board_full_row_persists :
    ((V0.lockPiece 0 0 v0StateRowAlmostFull).board.getD 19 []).all
        (fun c => decide (c ≠ 0)) = true ∧
    (V0.lockPiece 0 0 v0StateRowAlmostFull).score = 100 ∧
    (lockPiece 0 0 pageStateRowAlmostFull).board = emptyBoard := by
  decide

/-! ### Safety of the lock write -/

/-- Well-formedness of a board: `ROWS` rows of `COLS` cells each. -/
def dims (b : Board) : Prop := b.length = ROWS ∧ ∀ row ∈ b, row.length = COLS

instance : DecidablePred dims := fun b => by
  unfold dims
  infer_instance

theorem dims_setCell {b : Board} (r c v : Nat) (hd : dims b) : dims (setCell b r c v) := by
  by_cases hr : r < b.length
  · constructor
    · rw [setCell, List.length_set]
      exact hd.1
    · intro row hrow
      rcases List.mem_or_eq_of_mem_set hrow with hmem | heq
      · exact hd.2 row hmem
      · subst heq
        rw [List.length_set, List.getD_eq_getElem _ _ hr]
        exact hd.2 _ (List.getElem_mem hr)
  · rw [setCell, List.set_eq_of_length_le (Nat.le_of_not_lt hr)]
    exact hd

theorem getD_setCell (b : Board) (r c v : Nat) (hr : r < b.length) (r' : Nat) :
    (setCell b r c v).getD r' [] =
      if r = r' then (b.getD r []).set c v else b.getD r' [] := by
  rw [setCell, List.getD_eq_getElem?_getD, List.getD_eq_getElem?_getD]
  by_cases hrr : r = r'
  · subst hrr
    rw [if_pos rfl, List.getElem?_set_self hr]
    rfl
  · rw [if_neg hrr, List.getElem?_set_ne hrr, List.getD_eq_getElem?_getD]

theorem getD_set_row (row : Row) (c v c' : Nat) :
    (row.set c v).getD c' 0 =
      if c = c' ∧ c < row.length then v else row.getD c' 0 := by
  by_cases hcc : c = c'
  · subst hcc
    by_cases hlt : c < row.length
    · rw [if_pos ⟨rfl, hlt⟩, List.getD_eq_getElem?_getD, List.getElem?_set_self hlt]
      rfl
    · rw [if_neg (fun hand => hlt hand.2),
        List.set_eq_of_length_le (Nat.le_of_not_lt hlt)]
  · rw [if_neg (fun hand => hcc hand.1), List.getD_eq_getElem?_getD,
      List.getD_eq_getElem?_getD, List.getElem?_set_ne hcc]

theorem cellAtN_setCell (b : Board) (r c v : Nat) (hr : r < b.length)
    (hc : c < (b.getD r []).length) (r' c' : Nat) :
    cellAtN (setCell b r c v) r' c' =
      if r = r' ∧ c = c' then v else cellAtN b r' c' := by
  simp only [cellAtN]
  rw [getD_setCell b r c v hr r']
  by_cases hrr : r = r'
  · subst hrr
    rw [if_pos rfl, getD_set_row]
    by_cases hcc : c = c'
    · rw [if_pos ⟨hcc, hc⟩, if_pos ⟨rfl, hcc⟩]
    · rw [if_neg (fun hand => hcc hand.1), if_neg (fun hand => hcc hand.2)]
  · rw [if_neg hrr, if_neg (fun hand => hrr hand.1)]

theorem foldl_dims_preserve {f : Board → Nat → Board}
    (hf : ∀ acc j, dims acc → dims (f acc j)) :
    ∀ (l : List Nat) (b : Board), dims b → dims (l.foldl f b) := by
  intro l
  induction l with
  | nil => intro b hd; exact hd
  | cons a t ih => intro b hd; exact ih _ (hf b a hd)

theorem dims_lockWrite (shape : List (List Nat)) (t : Nat) (x y : Int) (i : Nat)
    (acc : Board) (j : Nat) (hd : dims acc) : dims (lockWrite shape t x y i acc j) := by
  simp only [lockWrite]
  split
  · exact dims_setCell _ _ _ hd
  · exact hd

theorem dims_lockRow (shape : List (List Nat)) (t : Nat) (x y : Int) (acc : Board)
    (i : Nat) (hd : dims acc) : dims (lockRow shape t x y acc i) :=
  foldl_dims_preserve (dims_lockWrite shape t x y i) _ acc hd

/-- Shape cell `(i, j)` is nonzero and targets the in-bounds board cell
`(r, c)` under anchor `(x, y)`. -/
def coveredBy (shape : List (List Nat)) (x y : Int) (i j : Nat) (r c : Nat) : Prop :=
  (shape.getD i []).getD j 0 ≠ 0 ∧ 0 ≤ y + (i : Int) ∧ y + (i : Int) < (ROWS : Int) ∧
    0 ≤ x + (j : Int) ∧ x + (j : Int) < (COLS : Int) ∧
    (y + (i : Int)).toNat = r ∧ (x + (j : Int)).toNat = c

instance (shape : List (List Nat)) (x y : Int) (i j r c : Nat) :
    Decidable (coveredBy shape x y i j r c) := by
  unfold coveredBy
  infer_instance

theorem cellAtN_foldl_lockWrite (shape : List (List Nat)) (t : Nat) (x y : Int) (i : Nat) :
    ∀ (n : Nat) (b : Board), dims b → ∀ r c : Nat,
      ((∃ j, j < n ∧ coveredBy shape x y i j r c) →
        cellAtN ((List.range n).foldl (lockWrite shape t x y i) b) r c = t) ∧
      ((¬ ∃ j, j < n ∧ coveredBy shape x y i j r c) →
        cellAtN ((List.range n).foldl (lockWrite shape t x y i) b) r c
          = cellAtN b r c) := by
  intro n
  induction n with
  | zero =>
    intro b _ r c
    constructor
    · rintro ⟨j, hj, -⟩
      omega
    · intro _
      rfl
  | succ n ih =>
    intro b hd r c
    have hF : dims ((List.range n).foldl (lockWrite shape t x y i) b) :=
      foldl_dims_preserve (dims_lockWrite shape t x y i) _ b hd
    rw [List.range_succ, List.foldl_append, List.foldl_cons, List.foldl_nil]
    set F := (List.range n).foldl (lockWrite shape t x y i) b with hFdef
    by_cases hg : (shape.getD i []).getD n 0 ≠ 0 ∧ 0 ≤ y + (i : Int) ∧
        y + (i : Int) < (ROWS : Int) ∧ 0 ≤ x + (n : Int) ∧ x + (n : Int) < (COLS : Int)
    · have hw : lockWrite shape t x y i F n =
          setCell F (y + (i : Int)).toNat (x + (n : Int)).toNat t := by
        simp only [lockWrite]
        rw [if_pos hg]
      rw [hw]
      have hry : (y + (i : Int)).toNat < F.length := by
        rw [hF.1]
        omega
      have hrowlen : (F.getD (y + (i : Int)).toNat []).length = COLS := by
        rw [List.getD_eq_getElem _ _ hry]
        exact hF.2 _ (List.getElem_mem hry)
      have hcx : (x + (n : Int)).toNat < (F.getD (y + (i : Int)).toNat []).length := by
        rw [hrowlen]
        omega
      rw [cellAtN_setCell F _ _ t hry hcx r c]
      constructor
      · rintro ⟨j, hj, hcov⟩
        by_cases htgt : (y + (i : Int)).toNat = r ∧ (x + (n : Int)).toNat = c
        · rw [if_pos htgt]
        · rw [if_neg htgt]
          have hjn : j < n := by
            rcases Nat.lt_succ_iff_lt_or_eq.mp hj with h | h
            · exact h
            · subst h
              exact absurd ⟨hcov.2.2.2.2.2.1, hcov.2.2.2.2.2.2⟩ htgt
          exact (ih b hd r c).1 ⟨j, hjn, hcov⟩
      · intro hne
        have htgt : ¬ ((y + (i : Int)).toNat = r ∧ (x + (n : Int)).toNat = c) := by
          intro htgt
          exact hne ⟨n, Nat.lt_succ_self n, hg.1, hg.2.1, hg.2.2.1, hg.2.2.2.1,
            hg.2.2.2.2, htgt.1, htgt.2⟩
        rw [if_neg htgt]
        exact (ih b hd r c).2 (fun ⟨j, hj, hcov⟩ => hne ⟨j, Nat.lt_succ_of_lt hj, hcov⟩)
    · have hw : lockWrite shape t x y i F n = F := by
        simp only [lockWrite]
        rw [if_neg hg]
      rw [hw]
      constructor
      · rintro ⟨j, hj, hcov⟩
        have hjn : j < n := by
          rcases Nat.lt_succ_iff_lt_or_eq.mp hj with h | h
          · exact h
          · subst h
            exact absurd ⟨hcov.1, hcov.2.1, hcov.2.2.1, hcov.2.2.2.1,
              hcov.2.2.2.2.1⟩ hg
        exact (ih b hd r c).1 ⟨j, hjn, hcov⟩
      · intro hne
        exact (ih b hd r c).2 (fun ⟨j, hj, hcov⟩ => hne ⟨j, Nat.lt_succ_of_lt hj, hcov⟩)

theorem cellAtN_lockRowFold (shape : List (List Nat)) (t : Nat) (x y : Int) :
    ∀ (m : Nat) (b : Board), dims b → ∀ r c : Nat,
      ((∃ i, i < m ∧ ∃ j, j < (shape.getD i []).length ∧ coveredBy shape x y i j r c) →
        cellAtN ((List.range m).foldl (lockRow shape t x y) b) r c = t) ∧
      ((¬ ∃ i, i < m ∧ ∃ j, j < (shape.getD i []).length ∧ coveredBy shape x y i j r c) →
        cellAtN ((List.range m).foldl (lockRow shape t x y) b) r c
          = cellAtN b r c) := by
  intro m
  induction m with
  | zero =>
    intro b _ r c
    constructor
    · rintro ⟨i, hi, -⟩
      omega
    · intro _
      rfl
  | succ m ih =>
    intro b hd r c
    have hF : dims ((List.range m).foldl (lockRow shape t x y) b) :=
      foldl_dims_preserve (fun acc i h => dims_lockRow shape t x y acc i h) _ b hd
    rw [List.range_succ, List.foldl_append, List.foldl_cons, List.foldl_nil]
    set F := (List.range m).foldl (lockRow shape t x y) b with hFdef
    have hinner := cellAtN_foldl_lockWrite shape t x y m
      ((shape.getD m []).length) F hF r c
    have hrow : lockRow shape t x y F m
        = (List.range ((shape.getD m []).length)).foldl (lockWrite shape t x y m) F := rfl
    rw [hrow]
    constructor
    · rintro ⟨i, hi, j, hj, hcov⟩
      by_cases hrc : ∃ j', j' < (shape.getD m []).length ∧ coveredBy shape x y m j' r c
      · exact hinner.1 hrc
      · rw [hinner.2 hrc]
        have him : i < m := by
          rcases Nat.lt_succ_iff_lt_or_eq.mp hi with h | h
          · exact h
          · subst h
            exact absurd ⟨j, hj, hcov⟩ hrc
        exact (ih b hd r c).1 ⟨i, him, j, hj, hcov⟩
    · intro hne
      have hrc : ¬ ∃ j', j' < (shape.getD m []).length ∧ coveredBy shape x y m j' r c :=
        fun ⟨j', hj', hcov'⟩ => hne ⟨m, Nat.lt_succ_self m, j', hj', hcov'⟩
      rw [hinner.2 hrc]
      exact (ih b hd r c).2
        (fun ⟨i, hi, j, hj, hcov⟩ => hne ⟨i, Nat.lt_succ_of_lt hi, j, hj, hcov⟩)

/-- Claim C9: on a well-formed board, the lock write preserves the board
dimensions and changes exactly the cells covered by a nonzero shape cell
whose target lies strictly inside `[0, COLS) × [0, ROWS)` — those receive
the piece-type identifier `t`, every other cell keeps its prior value, and
nonzero shape cells whose target row is negative (above the board) cover
nothing and are silently dropped. -/
theorem lockPieceBoard_writes_in_bounds (b : Board) (shape : List (List Nat))
    (t : Nat) (x y : Int) (hd : dims b) :
    dims (lockPieceBoard b shape t x y) ∧
    ∀ r c : Nat,
      ((∃ i, i < shape.length ∧ ∃ j, j < (shape.getD i []).length ∧
          coveredBy shape x y i j r c) →
        cellAtN (lockPieceBoard b shape t x y) r c = t) ∧
      ((¬ ∃ i, i < shape.length ∧ ∃ j, j < (shape.getD i []).length ∧
          coveredBy shape x y i j r c) →
        cellAtN (lockPieceBoard b shape t x y) r c = cellAtN b r c) := by
  constructor
  · exact foldl_dims_preserve (fun acc i h => dims_lockRow shape t x y acc i h) _ b hd
  · intro r c
    exact cellAtN_lockRowFold shape t x y shape.length b hd r c

/-- Witness for claim C9: locking the O piece at anchor `(3, 17)` on the
empty board writes type 2 at the covered cell `(18, 4)` and leaves the
uncovered cell `(0, 0)` unchanged. -/
theorem lockPieceBoard_writes_in_bounds_witness :
    cellAtN (lockPieceBoard emptyBoard (SHAPES.getD 1 []) 2 3 17) 18 4 = 2 ∧
    cellAtN (lockPieceBoard emptyBoard (SHAPES.getD 1 []) 2 3 17) 0 0
      = cellAtN emptyBoard 0 0 := by
  have h := lockPieceBoard_writes_in_bounds emptyBoard (SHAPES.getD 1 []) 2 3 17 (by decide)
  refine ⟨(h.2 18 4).1 ⟨1, by decide, 1, by decide, by decide⟩, (h.2 0 0).2 ?_⟩
  rintro ⟨i, hi, j, hj, hcov⟩
  have h1 := hcov.2.1
  have h2 := hcov.2.2.2.2.2.1
  omega

/-! ### Termination of the hard-drop descent loop -/

theorem checkCollision_of_floor (board : Board) (shape : List (List Nat)) (x y : Int)
    {i j : Nat} (hi : i < shape.length) (hj : j < (shape.getD i []).length)
    (hnz : (shape.getD i []).getD j 0 ≠ 0) (hy : (ROWS : Int) ≤ y + (i : Int)) :
    checkCollision board shape x y = true := by
  rw [checkCollision, List.any_eq_true]
  refine ⟨i, List.mem_range.mpr hi, ?_⟩
  rw [List.any_eq_true]
  refine ⟨j, List.mem_range.mpr hj, ?_⟩
  simp only [Bool.and_eq_true, Bool.or_eq_true, decide_eq_true_eq]
  exact ⟨hnz, by tauto⟩

theorem checkCollision_allzero (board : Board) (shape : List (List Nat)) (x y : Int)
    (hz : ∀ i, i < shape.length → ∀ j, j < (shape.getD i []).length →
      (shape.getD i []).getD j 0 = 0) :
    checkCollision board shape x y = false := by
  rw [checkCollision]
  rw [List.any_eq_false]
  intro i hi
  rw [List.mem_range] at hi
  rw [Bool.not_eq_true, List.any_eq_false]
  intro j hj
  rw [List.mem_range] at hj
  have h0 := hz i hi j hj
  rw [List.getD_eq_getElem?_getD, List.getD_eq_getElem?_getD] at h0
  simp [h0]

theorem dropLoop_some (board : Board) (shape : List (List Nat)) (x : Int) :
    ∀ (fuel : Nat) (y y' : Int), dropLoop board shape x fuel y = some y' →
      y ≤ y' ∧ checkCollision board shape x (y' + 1) = true ∧
      ∀ z : Int, y < z → z ≤ y' → checkCollision board shape x z = false := by
  intro fuel
  induction fuel with
  | zero =>
    intro y y' h
    simp only [dropLoop] at h
    by_cases hc : checkCollision board shape x (y + 1) = true
    · rw [if_pos hc] at h
      injection h with h'
      subst h'
      exact ⟨le_refl _, hc, fun z hz1 hz2 => absurd (lt_of_lt_of_le hz1 hz2) (lt_irrefl _)⟩
    · rw [if_neg hc] at h
      exact Option.noConfusion h
  | succ fuel ih =>
    intro y y' h
    simp only [dropLoop] at h
    by_cases hc : checkCollision board shape x (y + 1) = true
    · rw [if_pos hc] at h
      injection h with h'
      subst h'
      exact ⟨le_refl _, hc, fun z hz1 hz2 => absurd (lt_of_lt_of_le hz1 hz2) (lt_irrefl _)⟩
    · rw [if_neg hc] at h
      obtain ⟨h1, h2, h3⟩ := ih (y + 1) y' h
      refine ⟨by omega, h2, ?_⟩
      intro z hz1 hz2
      by_cases hzy : z = y + 1
      · subst hzy
        simpa using hc
      · exact h3 z (by omega) hz2

theorem dropLoop_terminates (board : Board) (shape : List (List Nat)) (x : Int)
    (hnz : ∃ i, i < shape.length ∧ ∃ j, j < (shape.getD i []).length ∧
      (shape.getD i []).getD j 0 ≠ 0) :
    ∀ (fuel : Nat) (y : Int), (ROWS : Int) ≤ y + (fuel : Int) →
      ∃ y', dropLoop board shape x fuel y = some y' := by
  obtain ⟨i, hi, j, hj, hcell⟩ := hnz
  intro fuel
  induction fuel with
  | zero =>
    intro y hy
    simp only [dropLoop]
    rw [if_pos (checkCollision_of_floor board shape x (y + 1) hi hj hcell (by omega))]
    exact ⟨y, rfl⟩
  | succ fuel ih =>
    intro y hy
    simp only [dropLoop]
    by_cases hc : checkCollision board shape x (y + 1) = true
    · rw [if_pos hc]
      exact ⟨y, rfl⟩
    · rw [if_neg hc]
      exact ih (y + 1) (by omega)

theorem dropLoop_allzero (board : Board) (shape : List (List Nat)) (x : Int)
    (hz : ∀ i, i < shape.length → ∀ j, j < (shape.getD i []).length →
      (shape.getD i []).getD j 0 = 0) :
    ∀ (fuel : Nat) (y : Int), dropLoop board shape x fuel y = none := by
  have hcol : ∀ y : Int, checkCollision board shape x y = false :=
    fun y => checkCollision_allzero board shape x y hz
  intro fuel
  induction fuel with
  | zero =>
    intro y
    simp only [dropLoop]
    rw [if_neg (by simp [hcol])]
  | succ fuel ih =>
    intro y
    simp only [dropLoop]
    rw [if_neg (by simp [hcol])]
    exact ih (y + 1)

/-- Claim C10: when the shape has at least one nonzero cell the hard-drop
descent loop terminates — enough fuel yields a final `y'` at which the next
row down collides while every intermediate step was collision free (any
nonzero cell at board row at or past `ROWS` collides, so the candidate `y`
is bounded); for an all-zero shape the loop condition never becomes false,
so the loop runs out of any finite fuel. -/
theorem hardDrop_loop_terminates (board : Board) (shape : List (List Nat)) (x y : Int) :
    ((∃ i, i < shape.length ∧ ∃ j, j < (shape.getD i []).length ∧
        (shape.getD i []).getD j 0 ≠ 0) →
      ∃ (fuel : Nat) (y' : Int), dropLoop board shape x fuel y = some y' ∧ y ≤ y' ∧
        checkCollision board shape x (y' + 1) = true ∧
        ∀ z : Int, y < z → z ≤ y' → checkCollision board shape x z = false) ∧
    ((∀ i, i < shape.length → ∀ j, j < (shape.getD i []).length →
        (shape.getD i []).getD j 0 = 0) →
      ∀ fuel : Nat, dropLoop board shape x fuel y = none) := by
  constructor
  · intro hnz
    obtain ⟨y', hy'⟩ := dropLoop_terminates board shape x hnz
      ((ROWS : Int) - y).toNat y (by omega)
    obtain ⟨h1, h2, h3⟩ := dropLoop_some board shape x _ y y' hy'
    exact ⟨_, y', hy', h1, h2, h3⟩
  · exact fun hz fuel => dropLoop_allzero board shape x hz fuel y

/-- Witness for claim C10: the O piece descends to rest on the floor of the
empty board, while an all-zero 2×2 shape never terminates the loop. -/
theorem hardDrop_loop_terminates_witness :
    (∃ (fuel : Nat) (y' : Int),
      dropLoop emptyBoard (SHAPES.getD 1 []) 3 fuel 0 = some y' ∧ 0 ≤ y' ∧
      checkCollision emptyBoard (SHAPES.getD 1 []) 3 (y' + 1) = true ∧
      ∀ z : Int, 0 < z → z ≤ y' → checkCollision emptyBoard (SHAPES.getD 1 []) 3 z = false) ∧
    (∀ fuel : Nat, dropLoop emptyBoard [[0, 0], [0, 0]] 3 fuel 0 = none) :=
  ⟨(hardDrop_loop_terminates emptyBoard (SHAPES.getD 1 []) 3 0).1
      ⟨1, by decide, 1, by decide, by decide⟩,
    (hardDrop_loop_terminates emptyBoard [[0, 0], [0, 0]] 3 0).2 (by decide)⟩

end FallingEmojis
